import Mathlib

/-
Verification of the lwmesh halfedge-mesh library.

The embedding follows the source modules:
  src/handle.rs        : Handle (tagged optional index)
  src/connectivity.rs  : VertexConnectivity / HalfedgeConnectivity / FaceConnectivity
  src/mesh.rs          : Topology, Mesh, add_vertex, add_vertices, add_face, new_edge
  src/mesh_iterator.rs : circulators around vertices and faces
  src/property.rs      : PropertyContainer (type-erased named columns)

Inside the Topology/Mesh model, handles are plain Nat indices, exactly as
mesh.rs consumes them (`h.idx()` arithmetic).  Out-of-bounds indexing panics in
Rust; the model uses List.getD / List.set, which are total, and the theorems
below only exercise in-bounds accesses.  The unbounded `loop` constructs of the
source (find_halfedge, adjust_outgoing_halfedge, the circulators) are modelled
with explicit fuel that dominates the halfedge count, which is an upper bound
for the cycle the source loop follows whenever it terminates.  A Rust panic
(the `assert!(start != end)` in new_edge) is modelled by an `Option` layer:
`none` means the call panics and produces no resulting state.
-/

namespace LwMesh

/-- Connectivity record of one halfedge (connectivity.rs, HalfedgeConnectivity):
optional incident face, target vertex, next and prev halfedge in the loop. -/
structure HalfedgeConnectivity where
  face_ : Option Nat
  vertex_ : Nat
  next_halfedge_ : Nat
  prev_halfedge_ : Nat
deriving DecidableEq, Repr

/-- HalfedgeConnectivity::invalid(): no face, all indices zero. -/
def HalfedgeConnectivity.invalid : HalfedgeConnectivity :=
  ⟨none, 0, 0, 0⟩

/-- Topology (mesh.rs): per-vertex optional outgoing halfedge, per-halfedge
connectivity, per-face representative halfedge. -/
structure Topology where
  vconn_ : List (Option Nat)
  hconn_ : List HalfedgeConnectivity
  fconn_ : List Nat
deriving DecidableEq, Repr

namespace Topology

/-- Topology::new(): all three columns empty. -/
def new : Topology := ⟨[], [], []⟩

def n_vertices (t : Topology) : Nat := t.vconn_.length

def n_faces (t : Topology) : Nat := t.fconn_.length

def n_edges (t : Topology) : Nat := t.hconn_.length / 2

def n_halfedges (t : Topology) : Nat := t.hconn_.length

/-- hconn_[h] (panics when out of bounds in the source). -/
def hAt (t : Topology) (h : Nat) : HalfedgeConnectivity :=
  t.hconn_.getD h HalfedgeConnectivity.invalid

/-- Topology::face. -/
def face (t : Topology) (h : Nat) : Option Nat := (t.hAt h).face_

/-- Topology::halfedge (outgoing halfedge of a vertex). -/
def halfedge (t : Topology) (v : Nat) : Option Nat := t.vconn_.getD v none

/-- Topology::face_halfedge. -/
def face_halfedge (t : Topology) (f : Nat) : Nat := t.fconn_.getD f 0

/-- Topology::to_vertex. -/
def to_vertex (t : Topology) (h : Nat) : Nat := (t.hAt h).vertex_

/-- Topology::next_halfedge. -/
def next_halfedge (t : Topology) (h : Nat) : Nat := (t.hAt h).next_halfedge_

/-- Topology::prev_halfedge. -/
def prev_halfedge (t : Topology) (h : Nat) : Nat := (t.hAt h).prev_halfedge_

/-- Topology::from_vertex = to_vertex of prev. -/
def from_vertex (t : Topology) (h : Nat) : Nat := t.to_vertex (t.prev_halfedge h)

/-- Topology::edge_halfedge: Halfedge::new(e.idx()*2+i). -/
def edge_halfedge (e i : Nat) : Nat := e * 2 + i

/-- Topology::edge: Edge::new(h.idx()/2). -/
def edge (h : Nat) : Nat := h / 2

/-- Topology::opposite_halfedge: idx-1 when idx is odd, idx+1 when even. -/
def opposite_halfedge (h : Nat) : Nat :=
  if h % 2 = 1 then h - 1 else h + 1

/-- Topology::cw_rotated_halfedge = next of opposite. -/
def cw_rotated_halfedge (t : Topology) (h : Nat) : Nat :=
  t.next_halfedge (opposite_halfedge h)

/-- Topology::is_boundary_halfedge: true iff the halfedge has no face. -/
def is_boundary_halfedge (t : Topology) (h : Nat) : Bool :=
  (t.face h).isNone

/-- Topology::is_boundary_vertex: outgoing halfedge absent, or it has no face. -/
def is_boundary_vertex (t : Topology) (v : Nat) : Bool :=
  match t.halfedge v with
  | some h => (t.face h).isNone
  | none => true

/-- The `loop` body of Topology::find_halfedge, with fuel.  The source loop
revisits the starting halfedge after at most one full clockwise rotation. -/
def find_halfedge_loop (t : Topology) (endv h_end : Nat) : Nat → Nat → Option Nat
  | 0, _ => none
  | fuel+1, h =>
    if t.to_vertex h = endv then some h
    else
      let h2 := t.cw_rotated_halfedge h
      if h2 = h_end then none
      else find_halfedge_loop t endv h_end fuel h2

/-- Topology::find_halfedge. -/
def find_halfedge (t : Topology) (start endv : Nat) : Option Nat :=
  match t.halfedge start with
  | none => none
  | some h => find_halfedge_loop t endv h (t.n_halfedges + 1) h

/-- Topology::set_halfedge. -/
def set_halfedge (t : Topology) (v h : Nat) : Topology :=
  { t with vconn_ := t.vconn_.set v (some h) }

/-- Topology::set_face. -/
def set_face (t : Topology) (h f : Nat) : Topology :=
  { t with hconn_ := t.hconn_.set h { t.hAt h with face_ := some f } }

/-- Topology::set_vertex. -/
def set_vertex (t : Topology) (h v : Nat) : Topology :=
  { t with hconn_ := t.hconn_.set h { t.hAt h with vertex_ := v } }

/-- Topology::set_next_halfedge: writes next of h, then prev of nh. -/
def set_next_halfedge (t : Topology) (h nh : Nat) : Topology :=
  let t1 : Topology :=
    { t with hconn_ := t.hconn_.set h { t.hAt h with next_halfedge_ := nh } }
  { t1 with hconn_ := t1.hconn_.set nh { t1.hAt nh with prev_halfedge_ := h } }

/-- The `loop` body of Topology::adjust_outgoing_halfedge, with fuel. -/
def adjust_loop (t : Topology) (v hh : Nat) : Nat → Nat → Topology
  | 0, _ => t
  | fuel+1, h =>
    if t.is_boundary_halfedge h then t.set_halfedge v h
    else
      let h2 := t.cw_rotated_halfedge h
      if h2 = hh then t
      else adjust_loop t v hh fuel h2

/-- Topology::adjust_outgoing_halfedge. -/
def adjust_outgoing_halfedge (t : Topology) (v : Nat) : Topology :=
  match t.halfedge v with
  | none => t
  | some h => adjust_loop t v h (t.n_halfedges + 1) h

end Topology

/-- Mesh (mesh.rs): a Topology plus the four property containers.  Only the
lengths of the general-purpose containers are relevant to the claims on the
mesh, so they are modelled by their element counts. -/
structure Mesh where
  topology : Topology
  vprop_ : Nat
  hprop_ : Nat
  eprop_ : Nat
  fprop_ : Nat
deriving DecidableEq, Repr

namespace Mesh

/-- Mesh::new(). -/
def new : Mesh := ⟨Topology.new, 0, 0, 0, 0⟩

/-- Mesh::add_vertex: push one vertex-property slot and one (invalid) vertex
connectivity record, return Vertex::new(len-1). -/
def add_vertex (m : Mesh) : Nat × Mesh :=
  let m1 : Mesh :=
    { m with
      topology := { m.topology with vconn_ := m.topology.vconn_ ++ [none] }
      vprop_ := m.vprop_ + 1 }
  (m1.topology.n_vertices - 1, m1)

/-- The 0..nb loop of Mesh::add_vertices (the capacity reservation that
precedes it does not change any observable length). -/
def add_vertices_loop : Nat → Mesh → List Nat → List Nat × Mesh
  | 0, m, acc => (acc, m)
  | k+1, m, acc =>
    let r := m.add_vertex
    add_vertices_loop k r.2 (acc ++ [r.1])

/-- Mesh::add_vertices. -/
def add_vertices (m : Mesh) (nb : Nat) : List Nat × Mesh :=
  add_vertices_loop nb m []

/-- Mesh::new_edge.  `none` models the panic of `assert!(start != end)`. -/
def new_edge (m : Mesh) (start endv : Nat) : Option (Nat × Mesh) :=
  if start = endv then none
  else
    let t := m.topology
    let t1 : Topology := { t with hconn_ := t.hconn_ ++ [HalfedgeConnectivity.invalid] }
    let h0 := t1.n_halfedges - 1
    let t2 : Topology := { t1 with hconn_ := t1.hconn_ ++ [HalfedgeConnectivity.invalid] }
    let h1 := t2.n_halfedges - 1
    let t3 := (t2.set_vertex h0 endv).set_vertex h1 start
    some (h0, { m with topology := t3, eprop_ := m.eprop_ + 1, hprop_ := m.hprop_ + 2 })

end Mesh

namespace Topology

/-- The validation loop of Mesh::add_face (the first `for i in 0..n`): aborts
with `none` at the first vertex that is not a boundary vertex or the first
already-existing halfedge that is not a boundary halfedge; otherwise collects
hvec in order.  Structural recursion on the number of remaining indices. -/
def add_face_validate_loop (t : Topology) (vs : List Nat) : Nat → Nat → Option (List (Option Nat))
  | _, 0 => some []
  | i, k+1 =>
    let vi := vs.getD i 0
    if t.is_boundary_vertex vi then
      match t.find_halfedge vi (vs.getD ((i+1) % vs.length) 0) with
      | some hh =>
        if t.is_boundary_halfedge hh then
          match add_face_validate_loop t vs (i+1) k with
          | none => none
          | some rest => some (some hh :: rest)
        else none
      | none =>
        match add_face_validate_loop t vs (i+1) k with
        | none => none
        | some rest => some (none :: rest)
    else none

/-- Validation phase of Mesh::add_face over all n indices. -/
def add_face_validate (t : Topology) (vs : List Nat) : Option (List (Option Nat)) :=
  add_face_validate_loop t vs 0 vs.length

end Topology

namespace Mesh

/-- The `Create missing edges` loop of Mesh::add_face.  `none` propagates the
new_edge panic. -/
def create_edges_loop (vs : List Nat) (new_hvec : List Bool) :
    Nat → Nat → Mesh → List (Option Nat) → Option (List (Option Nat) × Mesh)
  | _, 0, m, hvec => some (hvec, m)
  | i, k+1, m, hvec =>
    if new_hvec.getD i false then
      let ii := (i+1) % vs.length
      match m.new_edge (vs.getD i 0) (vs.getD ii 0) with
      | none => none
      | some r => create_edges_loop vs new_hvec (i+1) k r.2 (hvec.set i (some r.1))
    else create_edges_loop vs new_hvec (i+1) k m hvec

/-- The `Setup halfedges` loop of Mesh::add_face: accumulates the next_cache
and needs_adjust exactly as the source does, mutating vertex outgoing
halfedges and halfedge faces along the way.  The source unwraps
`halfedge(v)` in the needs_adjust branch; that value is present whenever the
validation found an existing halfedge leaving v, and the model compares the
optional value directly. -/
def setup_loop (vs : List Nat) (hvec : List (Option Nat)) (new_hvec : List Bool) (f : Nat) :
    Nat → Nat → Mesh → List (Nat × Nat) → List Bool → Mesh × List (Nat × Nat) × List Bool
  | _, 0, m, cache, adj => (m, cache, adj)
  | i, k+1, m, cache, adj =>
    let n := vs.length
    let ii := (i+1) % n
    let v := vs.getD ii 0
    let inner_prev := (hvec.getD i none).getD 0
    let inner_next := (hvec.getD ii none).getD 0
    if new_hvec.getD i false || new_hvec.getD ii false then
      let outer_prev := Topology.opposite_halfedge inner_next
      let outer_next := Topology.opposite_halfedge inner_prev
      let step : Mesh × List (Nat × Nat) :=
        if ¬ new_hvec.getD ii false then
          let boundary_prev := m.topology.prev_halfedge inner_next
          ({ m with topology := m.topology.set_halfedge v outer_next },
           cache ++ [(boundary_prev, outer_next)])
        else if ¬ new_hvec.getD i false then
          let boundary_next := m.topology.next_halfedge inner_prev
          ({ m with topology := m.topology.set_halfedge v boundary_next },
           cache ++ [(outer_prev, boundary_next)])
        else
          match m.topology.halfedge v with
          | none =>
            ({ m with topology := m.topology.set_halfedge v outer_next },
             cache ++ [(outer_prev, outer_next)])
          | some h =>
            let boundary_prev := m.topology.prev_halfedge h
            (m, cache ++ [(boundary_prev, outer_next), (outer_prev, h)])
      let m2 : Mesh :=
        { step.1 with topology := step.1.topology.set_face inner_prev f }
      setup_loop vs hvec new_hvec f (i+1) k m2 (step.2 ++ [(inner_prev, inner_next)]) adj
    else
      let adj2 := adj.set ii (m.topology.halfedge v == some inner_next)
      let m2 : Mesh := { m with topology := m.topology.set_face inner_prev f }
      setup_loop vs hvec new_hvec f (i+1) k m2 cache adj2

/-- The `process cache` loop of Mesh::add_face. -/
def apply_cache : List (Nat × Nat) → Topology → Topology
  | [], t => t
  | p :: rest, t => apply_cache rest (t.set_next_halfedge p.1 p.2)

/-- The `adjust vertices halfedge handle` loop of Mesh::add_face. -/
def adjust_all (vs : List Nat) (adj : List Bool) : Nat → Nat → Topology → Topology
  | _, 0, t => t
  | i, k+1, t =>
    let t2 := if adj.getD i false then t.adjust_outgoing_halfedge (vs.getD i 0) else t
    adjust_all vs adj (i+1) k t2

/-- Mesh::add_face.  The outer Option is the panic layer (`none` = the call
panics and there is no resulting state); the inner Option is the source's
return value, paired with the mesh after the call. -/
def add_face (m : Mesh) (vs : List Nat) : Option (Option Nat × Mesh) :=
  let n := vs.length
  match m.topology.add_face_validate vs with
  | none => some (none, m)
  | some hvec0 =>
    let new_hvec := hvec0.map Option.isNone
    match create_edges_loop vs new_hvec 0 n m hvec0 with
    | none => none
    | some r1 =>
      let hvec := r1.1
      let m1 := r1.2
      let t1 := m1.topology
      let t2 : Topology := { t1 with fconn_ := t1.fconn_ ++ [0] }
      let f := t2.n_faces - 1
      let t3 : Topology := { t2 with fconn_ := t2.fconn_.set f ((hvec.getD (n-1) none).getD 0) }
      let m2 : Mesh := { m1 with topology := t3, fprop_ := m1.fprop_ + 1 }
      let r2 := setup_loop vs hvec new_hvec f 0 n m2 [] (List.replicate n false)
      let t4 := apply_cache r2.2.1 r2.1.topology
      let t5 := adjust_all vs r2.2.2 0 n t4
      some (some f, { r2.1 with topology := t5 })

end Mesh

/-- State of the circulators around a vertex (mesh_iterator.rs,
VerticesAroundVertexCirculator / HalfedgesAroundVertexCirculator /
FacesAroundVertexCirculator): end halfedge, current halfedge, and the
has-advanced flag. -/
structure VertexCirc where
  end_ : Option Nat
  curr_ : Option Nat
  active_ : Bool
deriving DecidableEq, Repr

/-- Topology::vertices_around_vertex. -/
def vertices_around_vertex (t : Topology) (v : Nat) : VertexCirc :=
  ⟨t.halfedge v, t.halfedge v, false⟩

/-- VerticesAroundVertexCirculator::next. -/
def vav_next (t : Topology) (s : VertexCirc) : Option (Nat × VertexCirc) :=
  match s.curr_ with
  | none => none
  | some c =>
    if s.active_ ∧ s.curr_ = s.end_ then none
    else some (t.to_vertex c, ⟨s.end_, some (t.cw_rotated_halfedge c), true⟩)

/-- Topology::halfedges_around_vertex. -/
def halfedges_around_vertex (t : Topology) (v : Nat) : VertexCirc :=
  ⟨t.halfedge v, t.halfedge v, false⟩

/-- HalfedgesAroundVertexCirculator::next. -/
def hav_next (t : Topology) (s : VertexCirc) : Option (Nat × VertexCirc) :=
  match s.curr_ with
  | none => none
  | some c =>
    if s.active_ ∧ s.curr_ = s.end_ then none
    else some (c, ⟨s.end_, some (t.cw_rotated_halfedge c), true⟩)

/-- The `while is_boundary_halfedge` loop in Topology::faces_around_vertex,
with fuel. -/
def fav_skip (t : Topology) : Nat → Nat → Nat
  | 0, h => h
  | fuel+1, h =>
    if t.is_boundary_halfedge h then fav_skip t fuel (t.cw_rotated_halfedge h) else h

/-- Topology::faces_around_vertex. -/
def faces_around_vertex (t : Topology) (v : Nat) : VertexCirc :=
  match t.halfedge v with
  | none => ⟨none, none, false⟩
  | some x =>
    let h := fav_skip t (t.n_halfedges + 1) x
    ⟨some h, some h, false⟩

/-- The inner advance loop of FacesAroundVertexCirculator::next (step, then
keep stepping while on a boundary halfedge), with fuel. -/
def fav_loop (t : Topology) : Nat → Nat → Nat
  | 0, h => h
  | fuel+1, h =>
    let h2 := t.cw_rotated_halfedge h
    if t.is_boundary_halfedge h2 then fav_loop t fuel h2 else h2

/-- FacesAroundVertexCirculator::next. -/
def fav_next (t : Topology) (s : VertexCirc) : Option (Nat × VertexCirc) :=
  match s.curr_ with
  | none => none
  | some c =>
    if s.active_ ∧ s.curr_ = s.end_ then none
    else some ((t.face c).getD 0, ⟨s.end_, some (fav_loop t (t.n_halfedges + 1) c), true⟩)

/-- State of the circulators around a face (mesh_iterator.rs,
VerticesAroundFaceCirculator / HalfedgesAroundFaceCirculator). -/
structure FaceCirc where
  end_ : Nat
  curr_ : Nat
  active_ : Bool
deriving DecidableEq, Repr

/-- Topology::vertices_around_face: starts at the face's representative
halfedge. -/
def vertices_around_face (t : Topology) (f : Nat) : FaceCirc :=
  ⟨t.face_halfedge f, t.face_halfedge f, false⟩

/-- VerticesAroundFaceCirculator::next. -/
def vaf_next (t : Topology) (s : FaceCirc) : Option (Nat × FaceCirc) :=
  if s.active_ ∧ s.curr_ = s.end_ then none
  else some (t.to_vertex s.curr_, ⟨s.end_, t.next_halfedge s.curr_, true⟩)

/-- Collect the outputs of the vertices-around-face circulator, with fuel. -/
def vaf_take (t : Topology) : Nat → FaceCirc → List Nat
  | 0, _ => []
  | fuel+1, s =>
    match vaf_next t s with
    | none => []
    | some r => r.1 :: vaf_take t fuel r.2

/-- Topology::halfedges_around_face. -/
def halfedges_around_face (t : Topology) (f : Nat) : FaceCirc :=
  ⟨t.face_halfedge f, t.face_halfedge f, false⟩

/-- HalfedgesAroundFaceCirculator::next. -/
def haf_next (t : Topology) (s : FaceCirc) : Option (Nat × FaceCirc) :=
  if s.active_ ∧ s.curr_ = s.end_ then none
  else some (s.curr_, ⟨s.end_, t.next_halfedge s.curr_, true⟩)

/-- Collect the outputs of the halfedges-around-face circulator, with fuel. -/
def haf_take (t : Topology) : Nat → FaceCirc → List Nat
  | 0, _ => []
  | fuel+1, s =>
    match haf_next t s with
    | none => []
    | some r => r.1 :: haf_take t fuel r.2

/-! Concrete meshes used by the scenario theorems. -/

/-- A mesh with k fresh vertices. -/
def addN (k : Nat) : Mesh := (Mesh.new.add_vertices k).2

/-- The mesh after an add_face call, when that call returns normally. -/
def stepFace (m : Mesh) (vs : List Nat) : Mesh :=
  match m.add_face vs with
  | some r => r.2
  | none => m

/-- Three add_vertex calls from the empty mesh. -/
def mv1 : Nat × Mesh := Mesh.new.add_vertex

def mv2 : Nat × Mesh := mv1.2.add_vertex

def mv3 : Nat × Mesh := mv2.2.add_vertex

/-- Mesh of a single triangle on vertices 0, 1, 2. -/
def triMesh : Mesh := stepFace mv3.2 [0, 1, 2]

/-- Seven isolated vertices, then three triangles forming a triple fan that
meets only at vertex 6: faces [0,6,1], [2,6,3], [4,6,5]. -/
def bowtie3 : Mesh := stepFace (stepFace (stepFace (addN 7) [0, 6, 1]) [2, 6, 3]) [4, 6, 5]

/-- The mesh after the further call add_face [1,6,4] on the triple fan. -/
def bowtieE : Mesh := stepFace bowtie3 [1, 6, 4]

/-- The mesh after add_face [0,1,0,2] (a vertex list that repeats vertex 0)
on three fresh vertices. -/
def dupMesh : Mesh := stepFace (addN 3) [0, 1, 0, 2]

end LwMesh

namespace LwMesh

/-- C4: from the empty mesh, three add_vertex calls return vertices 0, 1, 2;
add_face [0,1,2] returns the face 0; afterwards n_faces = 1, n_edges = 3,
n_halfedges = 6; find_halfedge 0 1 returns a halfedge that is not a boundary
halfedge, and its opposite is a boundary halfedge. -/
theorem triangle_scenario :
    mv1.1 = 0 ∧ mv2.1 = 1 ∧ mv3.1 = 2
    ∧ mv3.2.add_face [0, 1, 2] = some (some 0, triMesh)
    ∧ triMesh.topology.n_faces = 1
    ∧ triMesh.topology.n_edges = 3
    ∧ triMesh.topology.n_halfedges = 6
    ∧ triMesh.topology.find_halfedge 0 1 = some 0
    ∧ triMesh.topology.is_boundary_halfedge 0 = false
    ∧ triMesh.topology.is_boundary_halfedge (Topology.opposite_halfedge 0) = true := by
  decide

/-- C2: on the triple-fan mesh bowtie3 the call add_face [1,6,4] succeeds
(all three vertices are distinct boundary vertices and both reused halfedges
are boundary halfedges), yet iterating vertices_around_face over the returned
face yields the six vertices [1,6,2,3,6,4] instead of the three vertices
[1,6,4], and halfedges_around_face yields six halfedges instead of three. -/
theorem addFace_face_circulator_bug :
    bowtie3.add_face [1, 6, 4] = some (some 3, bowtieE)
    ∧ vaf_take bowtieE.topology 30 (vertices_around_face bowtieE.topology 3)
        = [1, 6, 2, 3, 6, 4]
    ∧ (haf_take bowtieE.topology 30 (halfedges_around_face bowtieE.topology 3)).length = 6 := by
  decide

/-- C3: from three fresh vertices, the call add_face [0,1,0,2] (vertex 0
repeated, no two consecutive entries equal, so no assertion fires) returns a
face, but afterwards halfedge 2 violates next(prev(h)) = h and halfedge 5
violates prev(next(h)) = h, although both are allocated halfedges. -/
theorem addFace_next_prev_inverse_bug :
    (addN 3).add_face [0, 1, 0, 2] = some (some 0, dupMesh)
    ∧ 2 < dupMesh.topology.n_halfedges
    ∧ 5 < dupMesh.topology.n_halfedges
    ∧ dupMesh.topology.next_halfedge (dupMesh.topology.prev_halfedge 2) ≠ 2
    ∧ dupMesh.topology.prev_halfedge (dupMesh.topology.next_halfedge 5) ≠ 5 := by
  decide

end LwMesh

namespace LwMesh

/-- Validation failure at index i of an add_face call, exactly the two checks
of the first loop of Mesh::add_face: the i-th vertex is not a boundary vertex,
or the halfedge from it to the next vertex already exists and is not a
boundary halfedge. -/
def validation_fails_at (t : Topology) (vs : List Nat) (i : Nat) : Prop :=
  t.is_boundary_vertex (vs.getD i 0) = false
  ∨ ∃ hh, t.find_halfedge (vs.getD i 0) (vs.getD ((i+1) % vs.length) 0) = some hh
        ∧ t.is_boundary_halfedge hh = false

theorem add_face_validate_loop_none (t : Topology) (vs : List Nat) :
    ∀ (k i : Nat), (∃ j, i ≤ j ∧ j < i + k ∧ validation_fails_at t vs j) →
      Topology.add_face_validate_loop t vs i k = none := by
  intro k
  induction k with
  | zero =>
    intro i ⟨j, hij, hj, _⟩
    omega
  | succ k ih =>
    intro i ⟨j, hij, hjk, hfail⟩
    rw [Topology.add_face_validate_loop]
    rcases hbv : t.is_boundary_vertex (vs.getD i 0) with _ | _
    · simp [hbv]
    · rcases hfind : t.find_halfedge (vs.getD i 0) (vs.getD ((i+1) % vs.length) 0) with _ | hh
      · have hji : i < j := by
          rcases Nat.lt_or_ge i j with hlt | hge
          · exact hlt
          · exfalso
            have heq : j = i := by omega
            subst heq
            rcases hfail with hbv2 | ⟨hh, hfh, _⟩
            · rw [hbv] at hbv2; exact Bool.noConfusion hbv2
            · rw [hfind] at hfh; exact Option.noConfusion hfh
        have hrec : Topology.add_face_validate_loop t vs (i+1) k = none :=
          ih (i+1) ⟨j, by omega, by omega, hfail⟩
        simp [hbv, hfind, hrec]
      · rcases hbh : t.is_boundary_halfedge hh with _ | _
        · simp [hbv, hfind, hbh]
        · have hji : i < j := by
            rcases Nat.lt_or_ge i j with hlt | hge
            · exact hlt
            · exfalso
              have heq : j = i := by omega
              subst heq
              rcases hfail with hbv2 | ⟨hh2, hfh2, hbh2⟩
              · rw [hbv] at hbv2; exact Bool.noConfusion hbv2
              · rw [hfind] at hfh2
                obtain rfl : hh = hh2 := Option.some.inj hfh2
                rw [hbh] at hbh2
                exact Bool.noConfusion hbh2
          have hrec : Topology.add_face_validate_loop t vs (i+1) k = none :=
            ih (i+1) ⟨j, by omega, by omega, hfail⟩
          simp [hbv, hfind, hbh, hrec]

/-- C1: whenever the validation of add_face fails -- some vertex of vs is not
currently a boundary vertex, or for some consecutive pair a halfedge between
them already exists and is not a boundary halfedge -- the call returns None
and the mesh (every connectivity column and every property container) is
completely unchanged. -/
theorem addFace_invalid_aborts_unchanged (m : Mesh) (vs : List Nat)
    (hfail : ∃ i, i < vs.length ∧ validation_fails_at m.topology vs i) :
    m.add_face vs = some (none, m) := by
  obtain ⟨i, hi, hf⟩ := hfail
  have hv : m.topology.add_face_validate vs = none := by
    apply add_face_validate_loop_none
    exact ⟨i, Nat.zero_le i, by omega, hf⟩
  rw [Mesh.add_face, hv]

/-- C1 witness: on the single-triangle mesh the call add_face [0,1,3] fails
validation (the halfedge from 0 to 1 exists and has a face) and leaves the
mesh untouched. -/
theorem addFace_invalid_aborts_unchanged_witness :
    triMesh.add_face [0, 1, 3] = some (none, triMesh) :=
  addFace_invalid_aborts_unchanged triMesh [0, 1, 3]
    ⟨0, by decide, Or.inr ⟨0, by decide, by decide⟩⟩

/-- C5: opposite_halfedge is an involution that flips exactly the low bit of
the index; edge_halfedge(e,0) and edge_halfedge(e,1) are the halfedges 2e and
2e+1; edge(h) = h/2, so an edge's two halfedges map back to it and a halfedge
and its opposite share their edge. -/
theorem opposite_edge_halfedge_relations (h e i : Nat) (hi : i < 2) :
    Topology.opposite_halfedge (Topology.opposite_halfedge h) = h
    ∧ Topology.opposite_halfedge h % 2 = (h + 1) % 2
    ∧ Topology.opposite_halfedge h / 2 = h / 2
    ∧ Topology.edge_halfedge e 0 = 2 * e
    ∧ Topology.edge_halfedge e 1 = 2 * e + 1
    ∧ Topology.edge h = h / 2
    ∧ Topology.edge (Topology.opposite_halfedge h) = Topology.edge h
    ∧ Topology.edge (Topology.edge_halfedge e i) = e := by
  refine ⟨?_, ?_, ?_, ?_, ?_, ?_, ?_, ?_⟩ <;>
    simp only [Topology.opposite_halfedge, Topology.edge, Topology.edge_halfedge] <;>
    first
    | (split_ifs <;> omega)
    | omega

/-- C5 witness: the relations instantiated at halfedge 5, edge 7, side 1. -/
theorem opposite_edge_halfedge_relations_witness :
    1 < 2 ∧
    (Topology.opposite_halfedge (Topology.opposite_halfedge 5) = 5
    ∧ Topology.opposite_halfedge 5 % 2 = (5 + 1) % 2
    ∧ Topology.opposite_halfedge 5 / 2 = 5 / 2
    ∧ Topology.edge_halfedge 7 0 = 2 * 7
    ∧ Topology.edge_halfedge 7 1 = 2 * 7 + 1
    ∧ Topology.edge 5 = 5 / 2
    ∧ Topology.edge (Topology.opposite_halfedge 5) = Topology.edge 5
    ∧ Topology.edge (Topology.edge_halfedge 7 1) = 7) :=
  ⟨by decide, opposite_edge_halfedge_relations 5 7 1 (by decide)⟩

end LwMesh

namespace LwMesh

theorem getD_append_singleton {α : Type} (l : List α) (x d : α) :
    (l ++ [x]).getD l.length d = x := by
  induction l with
  | nil => rfl
  | cons a l ih => simp

theorem add_vertex_fresh_halfedge (m : Mesh) :
    m.add_vertex.2.topology.halfedge m.add_vertex.1 = none := by
  show (m.topology.vconn_ ++ [none]).getD ((m.topology.vconn_ ++ [none]).length - 1) none = none
  simp

/-- C8: for a vertex freshly created by add_vertex (no outgoing halfedge),
each circulator around it starts with an absent current halfedge, so its very
first next call returns None: all three around-vertex sequences are empty,
and the boundary-skipping loop in faces_around_vertex is never entered. -/
theorem fresh_vertex_circulators_empty (m : Mesh) :
    vav_next m.add_vertex.2.topology
        (vertices_around_vertex m.add_vertex.2.topology m.add_vertex.1) = none
    ∧ hav_next m.add_vertex.2.topology
        (halfedges_around_vertex m.add_vertex.2.topology m.add_vertex.1) = none
    ∧ faces_around_vertex m.add_vertex.2.topology m.add_vertex.1 = ⟨none, none, false⟩
    ∧ fav_next m.add_vertex.2.topology
        (faces_around_vertex m.add_vertex.2.topology m.add_vertex.1) = none := by
  have hhe := add_vertex_fresh_halfedge m
  refine ⟨?_, ?_, ?_, ?_⟩ <;>
    simp [vav_next, hav_next, fav_next, vertices_around_vertex,
      halfedges_around_vertex, faces_around_vertex, hhe]

theorem add_vertex_index (m : Mesh) : m.add_vertex.1 = m.topology.n_vertices := by
  simp [Mesh.add_vertex, Topology.n_vertices]

theorem add_vertex_count (m : Mesh) :
    m.add_vertex.2.topology.n_vertices = m.topology.n_vertices + 1 := by
  simp [Mesh.add_vertex, Topology.n_vertices]

theorem add_vertices_loop_spec (k : Nat) :
    ∀ (m : Mesh) (acc : List Nat),
      (Mesh.add_vertices_loop k m acc).1
          = acc ++ (List.range k).map (fun j => m.topology.n_vertices + j)
      ∧ (Mesh.add_vertices_loop k m acc).2.topology.n_vertices
          = m.topology.n_vertices + k := by
  induction k with
  | zero => intro m acc; simp [Mesh.add_vertices_loop]
  | succ k ih =>
    intro m acc
    rw [Mesh.add_vertices_loop]
    obtain ⟨h1, h2⟩ := ih m.add_vertex.2 (acc ++ [m.add_vertex.1])
    constructor
    · rw [h1, add_vertex_count, add_vertex_index, List.append_assoc]
      congr 1
      rw [List.range_succ_eq_map, List.map_cons, List.map_map]
      simp only [List.cons_append, List.nil_append, Nat.add_zero]
      congr 1
      apply List.map_congr_left
      intro j _
      simp [Function.comp]
      omega
    · rw [h2, add_vertex_count]
      omega

/-- C10: add_vertex returns the vertex whose index is the vertex count before
the call and increments the count by one; add_vertices nb returns the nb
consecutive indices continuing from the previous count. -/
theorem add_vertex_sequential_indices (m : Mesh) (nb : Nat) :
    m.add_vertex.1 = m.topology.n_vertices
    ∧ m.add_vertex.2.topology.n_vertices = m.topology.n_vertices + 1
    ∧ (m.add_vertices nb).1 = (List.range nb).map (fun k => m.topology.n_vertices + k)
    ∧ (m.add_vertices nb).2.topology.n_vertices = m.topology.n_vertices + nb := by
  refine ⟨add_vertex_index m, add_vertex_count m, ?_, ?_⟩
  · have h := (add_vertices_loop_spec nb m []).1
    simpa [Mesh.add_vertices] using h
  · have h := (add_vertices_loop_spec nb m []).2
    simpa [Mesh.add_vertices] using h

end LwMesh

namespace LwMesh

/-- One type-erased property column (property.rs, PropertyVec): its name, the
runtime identity of its element type (the role the Any/TypeId downcast plays
in the source), its default value and its data.  Erased values are modelled
as Nat. -/
structure PropertyVecM where
  name_ : String
  tag_ : Nat
  default_ : Nat
  data_ : List Nat
deriving DecidableEq, Repr

/-- PropertyVec::push: append one clone of the default value. -/
def PropertyVecM.push (pv : PropertyVecM) : PropertyVecM :=
  { pv with data_ := pv.data_ ++ [pv.default_] }

/-- PropertyContainer (property.rs): the named columns and the logical
element count size_. -/
structure PropertyContainerM where
  parrays_ : List PropertyVecM
  size_ : Nat
deriving DecidableEq, Repr

namespace PropertyContainerM

/-- PropertyContainer::new(). -/
def new : PropertyContainerM := ⟨[], 0⟩

/-- The name-collision scan at the start of PropertyContainer::add. -/
def containsName : List PropertyVecM → String → Bool
  | [], _ => false
  | pv :: rest, name => if pv.name_ = name then true else containsName rest name

/-- PropertyContainer::add: fails iff some column already has this name
(whatever its element type); otherwise appends a column backfilled with
size_ clones of the default value and returns its handle. -/
def add (c : PropertyContainerM) (name : String) (tag dv : Nat) :
    Option (Nat × PropertyContainerM) :=
  if containsName c.parrays_ name then none
  else
    some (c.parrays_.length,
      { c with parrays_ := c.parrays_ ++ [⟨name, tag, dv, List.replicate c.size_ dv⟩] })

/-- The scan of PropertyContainer::get: the first column whose name matches
and whose stored type downcasts to the requested one; a column with the right
name but the wrong type is skipped, exactly as in the source loop. -/
def getLoop (name : String) (tag : Nat) : List PropertyVecM → Nat → Option Nat
  | [], _ => none
  | pv :: rest, i =>
    if pv.name_ = name ∧ pv.tag_ = tag then some i
    else getLoop name tag rest (i+1)

/-- PropertyContainer::get. -/
def get (c : PropertyContainerM) (name : String) (tag : Nat) : Option Nat :=
  getLoop name tag c.parrays_ 0

/-- PropertyContainer::push: one default-valued slot appended to every
column, logical length incremented. -/
def push (c : PropertyContainerM) : PropertyContainerM :=
  { c with size_ := c.size_ + 1, parrays_ := c.parrays_.map PropertyVecM.push }

/-- N successive pushes (creating N elements). -/
def pushN (c : PropertyContainerM) : Nat → PropertyContainerM
  | 0 => c
  | k+1 => (pushN c k).push

/-- PropertyContainer::access (indexed read through a column handle; the
source panics on an out-of-range index or a failed downcast). -/
def access (c : PropertyContainerM) (prop h : Nat) : Nat :=
  ((c.parrays_.getD prop ⟨"", 0, 0, []⟩).data_).getD h 0

/-- Writing val through the mutable reference of PropertyContainer::access_mut
at element h of column prop. -/
def write (c : PropertyContainerM) (prop h val : Nat) : PropertyContainerM :=
  match c.parrays_[prop]? with
  | none => c
  | some pv =>
    { c with parrays_ := c.parrays_.set prop { pv with data_ := pv.data_.set h val } }

end PropertyContainerM

theorem containsName_eq_true_iff (l : List PropertyVecM) (name : String) :
    PropertyContainerM.containsName l name = true ↔ ∃ pv ∈ l, pv.name_ = name := by
  induction l with
  | nil => simp [PropertyContainerM.containsName]
  | cons a l ih =>
    rw [PropertyContainerM.containsName]
    split_ifs with h
    · constructor
      · intro _
        exact ⟨a, List.mem_cons_self a l, h⟩
      · intro _
        rfl
    · rw [ih]
      constructor
      · rintro ⟨pv, hm, hn⟩
        exact ⟨pv, List.mem_cons_of_mem a hm, hn⟩
      · rintro ⟨pv, hm, hn⟩
        rcases List.mem_cons.mp hm with rfl | hm2
        · exact absurd hn h
        · exact ⟨pv, hm2, hn⟩

theorem getLoop_eq_none_iff (name : String) (tag : Nat) (l : List PropertyVecM) :
    ∀ i, PropertyContainerM.getLoop name tag l i = none
      ↔ ∀ pv ∈ l, ¬ (pv.name_ = name ∧ pv.tag_ = tag) := by
  induction l with
  | nil => intro i; simp [PropertyContainerM.getLoop]
  | cons a l ih =>
    intro i
    rw [PropertyContainerM.getLoop]
    split_ifs with h
    · simp only [List.mem_cons]
      constructor
      · intro hc
        exact hc.elim
      · intro hall
        exact absurd h (hall a (Or.inl rfl))
    · rw [ih (i+1)]
      constructor
      · intro hall pv hm
        rcases List.mem_cons.mp hm with rfl | hm2
        · exact h
        · exact hall pv hm2
      · intro hall pv hm
        exact hall pv (List.mem_cons_of_mem a hm)

theorem getLoop_found (name : String) (tag : Nat) :
    ∀ (l : List PropertyVecM), (l.map PropertyVecM.name_).Nodup →
      ∀ (i : Nat) (pv : PropertyVecM), l[i]? = some pv →
        pv.name_ = name → pv.tag_ = tag →
        ∀ j, PropertyContainerM.getLoop name tag l j = some (j + i) := by
  intro l
  induction l with
  | nil =>
    intro _ i pv hget
    simp at hget
  | cons a l ih =>
    intro hn i pv hget hname htag j
    have hn2 : a.name_ ∉ l.map PropertyVecM.name_ ∧ (l.map PropertyVecM.name_).Nodup := by
      simpa [List.nodup_cons] using hn
    cases i with
    | zero =>
      obtain rfl : a = pv := by simpa using hget
      rw [PropertyContainerM.getLoop, if_pos ⟨hname, htag⟩, Nat.add_zero]
    | succ i =>
      have hget2 : l[i]? = some pv := by simpa using hget
      rw [PropertyContainerM.getLoop]
      split_ifs with h
      · exfalso
        apply hn2.1
        rw [h.1, ← hname]
        exact List.mem_map_of_mem PropertyVecM.name_ (List.getElem?_mem hget2)
      · rw [ih hn2.2 i pv hget2 hname htag (j+1)]
        congr 1
        omega

/-- C6: add fails exactly when a column with the requested name already
exists, no matter which element type that column stores; get fails exactly
when no column has both the requested name and the requested element type,
and a column with both is returned through its handle. -/
theorem property_add_get_name_type (c : PropertyContainerM) (name : String)
    (tag dv : Nat) (hnodup : (c.parrays_.map PropertyVecM.name_).Nodup) :
    (c.add name tag dv = none ↔ ∃ pv ∈ c.parrays_, pv.name_ = name)
    ∧ (c.get name tag = none ↔ ¬ ∃ pv ∈ c.parrays_, pv.name_ = name ∧ pv.tag_ = tag)
    ∧ (∀ i pv, c.parrays_[i]? = some pv → pv.name_ = name → pv.tag_ = tag →
        c.get name tag = some i) := by
  refine ⟨?_, ?_, ?_⟩
  · rw [PropertyContainerM.add]
    split_ifs with h
    · constructor
      · intro _
        exact (containsName_eq_true_iff c.parrays_ name).mp h
      · intro _
        rfl
    · constructor
      · intro hc
        exact hc.elim
      · intro hex
        exact absurd ((containsName_eq_true_iff c.parrays_ name).mpr hex) h
  · rw [PropertyContainerM.get, getLoop_eq_none_iff]
    constructor
    · intro hall ⟨pv, hm, hp⟩
      exact hall pv hm hp
    · intro hne pv hm hp
      exact hne ⟨pv, hm, hp⟩
  · intro i pv hget hname htag
    have h := getLoop_found name tag c.parrays_ hnodup i pv hget hname htag 0
    rw [PropertyContainerM.get, h, Nat.zero_add]

/-- C6 witness: a container with one column named p of type tag 0; adding
name p again with a different type tag still fails, getting name p at type
tag 1 fails, and getting it at the stored type returns the column. -/
theorem property_add_get_name_type_witness :
    ((PropertyContainerM.new.add "p" 0 17).getD (0, PropertyContainerM.new)).2.add "p" 1 5 = none
    ∧ ((PropertyContainerM.new.add "p" 0 17).getD (0, PropertyContainerM.new)).2.get "p" 1 = none
    ∧ ((PropertyContainerM.new.add "p" 0 17).getD (0, PropertyContainerM.new)).2.get "p" 0 = some 0 := by
  have h := property_add_get_name_type
    ((PropertyContainerM.new.add "p" 0 17).getD (0, PropertyContainerM.new)).2 "p" 1 5
    (by decide)
  refine ⟨h.1.mpr ⟨⟨"p", 0, 17, []⟩, by decide, by decide⟩, ?_, ?_⟩
  · exact h.2.1.mpr (by decide)
  · have h0 := property_add_get_name_type
      ((PropertyContainerM.new.add "p" 0 17).getD (0, PropertyContainerM.new)).2 "p" 0 5
      (by decide)
    exact h0.2.2 0 ⟨"p", 0, 17, []⟩ (by decide) (by decide) (by decide)

end LwMesh

namespace LwMesh

/-- The effect on one column of N pushes: N default clones appended. -/
def pushRep (N : Nat) (pv : PropertyVecM) : PropertyVecM :=
  { pv with data_ := pv.data_ ++ List.replicate N pv.default_ }

theorem pushN_spec (c : PropertyContainerM) (N : Nat) :
    (c.pushN N).parrays_ = c.parrays_.map (pushRep N)
    ∧ (c.pushN N).size_ = c.size_ + N := by
  induction N with
  | zero =>
    constructor
    · show c.parrays_ = c.parrays_.map (pushRep 0)
      have hid : ∀ pv : PropertyVecM, pushRep 0 pv = pv := by
        intro pv
        cases pv
        simp [pushRep]
      calc c.parrays_ = c.parrays_.map id := by rw [List.map_id]
        _ = c.parrays_.map (pushRep 0) := List.map_congr_left (fun pv _ => (hid pv).symm)
    · rfl
  | succ N ih =>
    constructor
    · show ((c.pushN N).push).parrays_ = _
      rw [PropertyContainerM.push]
      simp only [ih.1, List.map_map]
      apply List.map_congr_left
      intro pv _
      simp [pushRep, PropertyVecM.push, List.replicate_succ', List.append_assoc]
    · show ((c.pushN N).push).size_ = _
      rw [PropertyContainerM.push]
      simp only [ih.2]
      omega

theorem getD_set_self {α : Type} (l : List α) (i : Nat) (x d : α) (h : i < l.length) :
    (l.set i x).getD i d = x := by
  rw [List.getD_eq_getElem?_getD, List.getElem?_set_eq_of_lt _ h]
  rfl

theorem getD_set_ne {α : Type} (l : List α) (i j : Nat) (x d : α) (h : i ≠ j) :
    (l.set i x).getD j d = l.getD j d := by
  rw [List.getD_eq_getElem?_getD, List.getElem?_set_ne h, ← List.getD_eq_getElem?_getD]

theorem getD_of_getElem? {α : Type} (l : List α) (i : Nat) (x d : α) (h : l[i]? = some x) :
    l.getD i d = x := by
  rw [List.getD_eq_getElem?_getD, h]
  rfl

/-- C7: after adding a column with default dv and creating N elements, the
column reads dv at each of the N new elements (indices size..size+N-1); an
in-range write through access_mut lands at its element, and every other
element of that column and every entry of every other column is unchanged. -/
theorem property_default_and_frame (c : PropertyContainerM) (name : String)
    (tag dv N p : Nat) (c1 : PropertyContainerM)
    (hadd : c.add name tag dv = some (p, c1)) :
    (∀ j, j < N → (c1.pushN N).access p (c.size_ + j) = dv)
    ∧ (∀ h val, h < c.size_ + N → ((c1.pushN N).write p h val).access p h = val)
    ∧ (∀ h val h2, h2 ≠ h →
        ((c1.pushN N).write p h val).access p h2 = (c1.pushN N).access p h2)
    ∧ (∀ h val p2 h2, p2 ≠ p →
        ((c1.pushN N).write p h val).access p2 h2 = (c1.pushN N).access p2 h2) := by
  rw [PropertyContainerM.add] at hadd
  by_cases hc : PropertyContainerM.containsName c.parrays_ name = true
  · rw [if_pos hc] at hadd
    exact absurd hadd (by simp)
  · rw [if_neg hc] at hadd
    injection hadd with hpair
    injection hpair with hp hc1
    subst hp
    subst hc1
    have hpar : (PropertyContainerM.pushN
        { parrays_ := c.parrays_ ++ [⟨name, tag, dv, List.replicate c.size_ dv⟩],
          size_ := c.size_ } N).parrays_
        = (c.parrays_.map (pushRep N))
            ++ [⟨name, tag, dv, List.replicate (c.size_ + N) dv⟩] := by
      rw [(pushN_spec _ N).1, List.map_append, List.replicate_add]
      rfl
    have hlen : c.parrays_.length < ((PropertyContainerM.pushN
        { parrays_ := c.parrays_ ++ [⟨name, tag, dv, List.replicate c.size_ dv⟩],
          size_ := c.size_ } N).parrays_).length := by
      rw [hpar]
      simp
    have hsome : ((PropertyContainerM.pushN
        { parrays_ := c.parrays_ ++ [⟨name, tag, dv, List.replicate c.size_ dv⟩],
          size_ := c.size_ } N).parrays_)[c.parrays_.length]?
        = some ⟨name, tag, dv, List.replicate (c.size_ + N) dv⟩ := by
      rw [hpar]
      have hl2 : (c.parrays_.map (pushRep N)).length = c.parrays_.length := by simp
      rw [← hl2]
      exact List.getElem?_concat_length _ _
    have hgetd : ((PropertyContainerM.pushN
        { parrays_ := c.parrays_ ++ [⟨name, tag, dv, List.replicate c.size_ dv⟩],
          size_ := c.size_ } N).parrays_).getD c.parrays_.length ⟨"", 0, 0, []⟩
        = ⟨name, tag, dv, List.replicate (c.size_ + N) dv⟩ :=
      getD_of_getElem? _ _ _ _ hsome
    refine ⟨?_, ?_, ?_, ?_⟩
    · intro j hj
      rw [PropertyContainerM.access, hgetd]
      simp only
      rw [List.getD_eq_getElem?_getD, List.getElem?_replicate, if_pos (by omega)]
      rfl
    · intro h val hh
      simp only [PropertyContainerM.write, hsome, PropertyContainerM.access]
      rw [getD_set_self _ _ _ _ hlen]
      simp only
      rw [getD_set_self _ _ _ _ (by simpa using hh)]
    · intro h val h2 hne
      simp only [PropertyContainerM.write, hsome, PropertyContainerM.access]
      rw [getD_set_self _ _ _ _ hlen, hgetd]
      simp only
      rw [getD_set_ne _ _ _ _ _ (by omega : h ≠ h2)]
    · intro h val p2 h2 hne
      simp only [PropertyContainerM.write, hsome, PropertyContainerM.access]
      rw [getD_set_ne _ _ _ _ _ (by omega : c.parrays_.length ≠ p2)]

/-- C7 witness: one column of default 17, two elements created; both read 17;
writing 42 at element 0 leaves element 1 and a read through a missing column
handle unchanged. -/
theorem property_default_and_frame_witness :
    (((PropertyContainerM.new.add "p" 0 17).getD (0, PropertyContainerM.new)).2.pushN 2).access 0 (0 + 1) = 17
    ∧ ((((PropertyContainerM.new.add "p" 0 17).getD (0, PropertyContainerM.new)).2.pushN 2).write 0 0 42).access 0 0 = 42
    ∧ ((((PropertyContainerM.new.add "p" 0 17).getD (0, PropertyContainerM.new)).2.pushN 2).write 0 0 42).access 0 1
        = (((PropertyContainerM.new.add "p" 0 17).getD (0, PropertyContainerM.new)).2.pushN 2).access 0 1
    ∧ ((((PropertyContainerM.new.add "p" 0 17).getD (0, PropertyContainerM.new)).2.pushN 2).write 0 0 42).access 1 0
        = (((PropertyContainerM.new.add "p" 0 17).getD (0, PropertyContainerM.new)).2.pushN 2).access 1 0 := by
  have h := property_default_and_frame PropertyContainerM.new "p" 0 17 2 0
    ((PropertyContainerM.new.add "p" 0 17).getD (0, PropertyContainerM.new)).2 (by decide)
  exact ⟨h.1 1 (by decide), h.2.1 0 42 (by decide), h.2.2.1 0 42 1 (by decide),
    h.2.2.2 0 42 1 0 (by decide)⟩

end LwMesh

namespace LwMesh

/-! The Handle type itself (handle.rs): a phantom-tagged wrapper around an
optional index, with an invalid state, ordered and compared by the stored
Option as Rust derives it on Option of usize (None sorts below every Some). -/

inductive PhantomVertex : Type
inductive PhantomFace : Type
inductive PhantomEdge : Type
inductive PhantomHalfedge : Type

/-- Handle (handle.rs): `index_ : Option<usize>` tagged by a phantom type. -/
structure Handle (A : Type) where
  index_ : Option Nat
deriving DecidableEq, Repr

namespace Handle

/-- Handle::invalid(). -/
def invalid {A : Type} : Handle A := ⟨none⟩

/-- Handle::new(idx). -/
def new {A : Type} (idx : Nat) : Handle A := ⟨some idx⟩

/-- Handle::idx(). -/
def idx {A : Type} (h : Handle A) : Option Nat := h.index_

/-- Handle::reset(). -/
def reset {A : Type} (_ : Handle A) : Handle A := ⟨none⟩

/-- Handle::is_valid(). -/
def is_valid {A : Type} (h : Handle A) : Bool := h.index_.isSome

/-- The Ord instance Rust derives for Option of usize: None below every Some,
Some compared by the wrapped value. -/
def optCmp : Option Nat → Option Nat → Ordering
  | none, none => Ordering.eq
  | none, some _ => Ordering.lt
  | some _, none => Ordering.gt
  | some a, some b => compare a b

/-- Ord::cmp for Handle: cmp of the index_ fields. -/
def cmp {A : Type} (a b : Handle A) : Ordering := optCmp a.index_ b.index_

/-- The `<=` operator derived from PartialOrd: true unless cmp is Greater. -/
def le {A : Type} (a b : Handle A) : Bool :=
  match cmp a b with
  | Ordering.gt => false
  | _ => true

/-- PartialEq::eq for Handle: equality of the index_ fields. -/
def eqb {A : Type} (a b : Handle A) : Bool := a.index_ == b.index_

end Handle

/-- C9 counterexample: Handle::invalid() holds no index and is_valid observes
that state, so a Handle is not a bare index -- the claim that every handle
holds an index fails at the concrete handle Handle::invalid(). -/
theorem handle_validity_counterexample :
    (Handle.invalid : Handle PhantomVertex).idx = none
    ∧ (Handle.invalid : Handle PhantomVertex).is_valid = false
    ∧ ¬ ∀ h : Handle PhantomVertex, ∃ i : Nat, h.idx = some i := by
  refine ⟨rfl, rfl, ?_⟩
  intro hall
  obtain ⟨i, hi⟩ := hall Handle.invalid
  exact Option.noConfusion hi

/-- C9 amended: a Handle stores an optional index (an intrinsic validity
bit: invalid() holds none and is_valid reports presence); new(i) holds i;
handles are equal exactly when their stored optional indices are equal, both
structurally and through the PartialEq test; the order is total, compares
new(i) with new(j) exactly as i with j, and sorts invalid below everything. -/
theorem handle_amended (i j : Nat) (a b : Handle PhantomVertex) :
    (Handle.new i : Handle PhantomVertex).idx = some i
    ∧ (Handle.invalid : Handle PhantomVertex).idx = none
    ∧ (Handle.new i : Handle PhantomVertex).is_valid = true
    ∧ (Handle.invalid : Handle PhantomVertex).is_valid = false
    ∧ (a = b ↔ a.index_ = b.index_)
    ∧ (Handle.eqb a b = true ↔ a.index_ = b.index_)
    ∧ (Handle.le (Handle.new i : Handle PhantomVertex) (Handle.new j) = true ↔ i ≤ j)
    ∧ (Handle.le a b = true ∨ Handle.le b a = true)
    ∧ Handle.le (Handle.invalid : Handle PhantomVertex) a = true := by
  refine ⟨rfl, rfl, rfl, rfl, ?_, ?_, ?_, ?_, ?_⟩
  · constructor
    · intro h
      rw [h]
    · intro h
      cases a
      cases b
      simpa using h
  · simp [Handle.eqb]
  · rw [Handle.le, Handle.cmp]
    show (match Handle.optCmp (some i) (some j) with
      | Ordering.gt => false
      | _ => true) = true ↔ i ≤ j
    rw [Handle.optCmp]
    rcases hcmp : compare i j with _ | _ | _
    · have hlt := Nat.compare_eq_lt.mp hcmp
      simp only [true_iff]
      omega
    · have heq := Nat.compare_eq_eq.mp hcmp
      simp only [true_iff]
      omega
    · have hgt := Nat.compare_eq_gt.mp hcmp
      simp only [Bool.false_eq_true, false_iff]
      omega
  · rw [Handle.le, Handle.le, Handle.cmp, Handle.cmp]
    rcases ha : a.index_ with _ | x <;> rcases hb : b.index_ with _ | y
    · simp [Handle.optCmp]
    · simp [Handle.optCmp]
    · simp [Handle.optCmp]
    · show (match Handle.optCmp (some x) (some y) with
        | Ordering.gt => false
        | _ => true) = true ∨ (match Handle.optCmp (some y) (some x) with
        | Ordering.gt => false
        | _ => true) = true
      rw [Handle.optCmp, Handle.optCmp]
      rcases hxy : compare x y with _ | _ | _
      · simp
      · simp
      · have hyx : compare y x = Ordering.lt := by
          rw [Nat.compare_eq_lt]
          exact Nat.compare_eq_gt.mp hxy
        rw [hyx]
        simp
  · rw [Handle.le, Handle.cmp]
    rcases ha : a.index_ with _ | x <;> simp [Handle.invalid, Handle.optCmp]

end LwMesh
